import Mathlib

/-
Verification development for the product-catalog migration/export pipeline.

The repository holds two TypeScript scripts sharing most of their logic:
a SQLite-to-MongoDB migration script (migrate-to-mongodb, given here as an
unnamed source file) and a SQLite-to-JSON export script (export-to-json.ts).
This file gives a shallow embedding of the pipeline logic of both scripts:
pure functions become Lean functions, the stateful loops become explicit
folds over state records, and the external collaborators (the embedding
provider attempt outcomes and the MongoDB insert outcomes) become explicit
oracle parameters.  All definitions are written with structural recursion
so that they evaluate on concrete inputs.
-/

set_option autoImplicit false

universe u v

/-! ### Models of the JavaScript string primitives used by the scripts -/

/-- Model of the whitespace test used by JavaScript String.prototype.trim,
restricted to the ASCII whitespace that the repository data uses
(space, tab, carriage return, line feed). -/
def jsWsChar (c : Char) : Bool := c.isWhitespace

/-- Drop leading and trailing whitespace from a character list:
the character-level body of JavaScript String.prototype.trim. -/
def trimChars (cs : List Char) : List Char :=
  ((cs.dropWhile jsWsChar).reverse.dropWhile jsWsChar).reverse

/-- Model of JavaScript String.prototype.trim. -/
def trimStr (s : String) : String := String.mk (trimChars s.data)

/-- Accumulator-style splitter: the body of JavaScript
String.prototype.split with a single-character separator. -/
def splitCommaAux (cur : List Char) : List Char → List (List Char)
  | [] => [cur.reverse]
  | c :: rest =>
    if c = ',' then cur.reverse :: splitCommaAux [] rest
    else splitCommaAux (c :: cur) rest

/-- Model of JavaScript s.split(",") : splitting on commas, keeping
empty fragments (a trailing comma yields a trailing empty string). -/
def splitComma (s : String) : List String :=
  (splitCommaAux [] s.data).map String.mk

/-- Model of JavaScript Array.prototype.join(", "), as used by
tags.join(", ") in generateEmbeddingText. -/
def joinComma : List String → String
  | [] => ""
  | [t] => t
  | t :: ts => t ++ ", " ++ joinComma ts

/-! ### Model of JSON.parse as applied to the tags field

The scripts call JSON.parse on the tags column and then distinguish an
array result from any other successfully parsed value.  We model
JSON.parse restricted to the value shapes a tags column can take: an
array of string literals, a single string literal, or an integer
literal; string escape sequences are not modelled (an input using them
is treated as a parse failure).  A parse failure models the exception
JSON.parse throws. -/

/-- Result of the modelled JSON.parse: an array of strings, a bare
string, or an integer. -/
inductive JsonValue where
  | arr (elems : List String)
  | str (s : String)
  | num (n : Int)
deriving DecidableEq, Repr

/-- Skip JSON insignificant whitespace. -/
def skipWs (cs : List Char) : List Char := cs.dropWhile jsWsChar

/-- Parse the body of a JSON string literal after the opening quote,
up to the closing quote; escape sequences are rejected. -/
def parseStrChars : List Char → Option (List Char × List Char)
  | [] => none
  | c :: rest =>
    if c = '"' then some ([], rest)
    else if c = '\\' then none
    else
      match parseStrChars rest with
      | some (s, r) => some (c :: s, r)
      | none => none

/-- Parse a nonempty run of decimal digits to a natural number. -/
def parseNatLit (cs : List Char) : Option (Nat × List Char) :=
  let ds := cs.takeWhile Char.isDigit
  if ds.isEmpty then none
  else some (ds.foldl (fun n c => 10 * n + (c.toNat - 48)) 0, cs.dropWhile Char.isDigit)

/-- Parse a JSON integer literal, with an optional leading minus sign. -/
def parseIntLit (cs : List Char) : Option (Int × List Char) :=
  match cs with
  | '-' :: rest => (parseNatLit rest).map (fun p => (-(p.1 : Int), p.2))
  | _ => (parseNatLit cs).map (fun p => ((p.1 : Int), p.2))

/-- Parse the comma-separated string elements of a JSON array, after the
opening bracket, consuming the closing bracket.  The first argument is
recursion fuel (one unit per element suffices). -/
def parseElems : Nat → List Char → Option (List String × List Char)
  | 0, _ => none
  | fuel + 1, cs =>
    match skipWs cs with
    | '"' :: rest =>
      match parseStrChars rest with
      | some (s, r) =>
        match skipWs r with
        | ',' :: r2 =>
          match parseElems fuel r2 with
          | some (ss, r3) => some (String.mk s :: ss, r3)
          | none => none
        | ']' :: r2 => some ([String.mk s], r2)
        | _ => none
      | none => none
    | _ => none

/-- Model of JSON.parse on the tags field: returns the parsed value, or
none when JSON.parse would throw.  Trailing non-whitespace input is a
parse failure, as in JSON.parse. -/
def jsonParseModel (s : String) : Option JsonValue :=
  match skipWs s.data with
  | '[' :: rest =>
    match skipWs rest with
    | ']' :: r => if (skipWs r).isEmpty then some (.arr []) else none
    | _ =>
      match parseElems (rest.length + 1) rest with
      | some (ss, r) => if (skipWs r).isEmpty then some (.arr ss) else none
      | none => none
  | '"' :: rest =>
    match parseStrChars rest with
    | some (s2, r) => if (skipWs r).isEmpty then some (.str (String.mk s2)) else none
    | none => none
  | cs =>
    match parseIntLit cs with
    | some (n, r) => if (skipWs r).isEmpty then some (.num n) else none
    | none => none

/-! ### Data model

SQLiteProduct is the row shape both scripts read from the products
table; MongoProduct is the document shape they build.  The price column
is declared number in the source; we model it as an integer (the store
holds whole prices and no claim depends on fractional rendering).
Embedding vectors are lists of Float, as in the source (number[]); no
definition below ever inspects a Float value. -/

structure SQLiteProduct where
  sku : String
  handle : String
  title : String
  description : String
  vendor : String
  price : Int
  currency : String
  image_url : String
  product_url : String
  tags : String
  search_content : String
deriving DecidableEq, Repr

structure MongoProduct where
  sku : String
  handle : String
  title : String
  description : String
  vendor : String
  price : Int
  currency : String
  image_url : String
  product_url : String
  tags : List String
  search_content : String
  embedding_text : String
  embedding : Option (List Float)
deriving Repr

/-! ### Transformer -/

/-- Tag parsing logic of transformProductToMongoSchema and
transformProduct (the two scripts have identical bodies): an empty tags
field (falsy in JavaScript) yields no tags; otherwise try JSON.parse,
keep an array result verbatim, wrap any other parsed value via String(),
and on a parse failure fall back to splitting on commas, trimming each
fragment, and discarding empty fragments. -/
def parseTags (tagsField : String) : List String :=
  if tagsField = "" then []
  else
    match jsonParseModel tagsField with
    | some (.arr xs) => xs
    | some (.str s) => [s]
    | some (.num n) => [toString n]
    | none => ((splitComma tagsField).map trimStr).filter (fun t => t ≠ "")

/-- generateEmbeddingText from both scripts: the template literal
basicInfo. pricing. tagText. searchContent followed by trim().
The description and search_content fields pass through a JavaScript
fallback to the empty string, which is the identity on strings. -/
def generateEmbeddingText (product : SQLiteProduct) (tags : List String) : String :=
  let basicInfo := product.title ++ " " ++ product.description ++ " from " ++ product.vendor
  let pricing := "Price: " ++ toString product.price ++ " " ++ product.currency
  let tagText := if tags.length > 0 then "Tags: " ++ joinComma tags else ""
  let searchContent := product.search_content
  trimStr (basicInfo ++ ". " ++ pricing ++ ". " ++ tagText ++ ". " ++ searchContent)

/-- transformProduct from export-to-json.ts: map a source row to the
document schema, normalizing tags and synthesizing embedding_text; the
embedding field is absent (none) at this stage. -/
def transformProduct (p : SQLiteProduct) : MongoProduct :=
  let tags := parseTags p.tags
  { sku := p.sku
    handle := p.handle
    title := p.title
    description := p.description
    vendor := p.vendor
    price := p.price
    currency := p.currency
    image_url := p.image_url
    product_url := p.product_url
    tags := tags
    search_content := p.search_content
    embedding_text := generateEmbeddingText p tags
    embedding := none }

/-- transformProductToMongoSchema from the migration script; its body is
textually identical to transformProduct in export-to-json.ts. -/
def transformProductToMongoSchema (p : SQLiteProduct) : MongoProduct :=
  transformProduct p

example : parseTags "[\"a\", \"b\"]" = ["a", "b"] := by decide
example : parseTags "a, b ," = ["a", "b"] := by decide
example : parseTags "[\"\"]" = [""] := by decide
example : parseTags "[\" a \"]" = [" a "] := by decide
example : parseTags "" = [] := by decide
example : parseTags "5" = ["5"] := by decide
example : parseTags "\"x\"" = ["x"] := by decide

/-! ### Embedding Client: retryWithBackoff

retryWithBackoff is identical in both scripts.  The wrapped asynchronous
function is modelled as a map from the attempt number (1-based, as in
the source loop) to the outcome of that attempt; a thrown JavaScript
error is modelled as a record exposing the fields the script reads. -/

/-- Model of the ad hoc error objects the scripts catch: the optional
numeric status field (429 signals rate limiting) and a message. -/
structure JsError where
  status : Option Nat
  message : String
deriving DecidableEq, Repr

/-- Observable outcome of one retryWithBackoff call: the returned value
or the propagated error, together with the total backoff delay slept in
milliseconds and the number of the attempt that produced the outcome.
The exhausted constructor models the trailing "Max retries exceeded"
throw after the attempt loop. -/
inductive RetryResult (α : Type u) where
  | ok (val : α) (totalDelay : Nat) (attempt : Nat)
  | err (e : JsError) (totalDelay : Nat) (attempt : Nat)
  | exhausted (totalDelay : Nat)
deriving Repr

/-- Backoff delay before the retry following a failed attempt:
Math.min(1000 * Math.pow(2, attempt), 30000). -/
def backoffDelay (attempt : Nat) : Nat := min (1000 * 2 ^ attempt) 30000

/-- Body of the retryWithBackoff attempt loop.  The last argument is
the number of loop iterations still allowed including the current one;
it starts at maxRetries, so remaining = 0 models the loop condition
attempt <= maxRetries failing.  The retry guard remaining-minus-one
nonzero is exactly the source guard attempt < maxRetries. -/
def retryGo {α : Type u} (fn : Nat → Except JsError α) (attempt : Nat) (acc : Nat) :
    Nat → RetryResult α
  | 0 => .exhausted acc
  | remaining + 1 =>
    match fn attempt with
    | .ok v => .ok v acc attempt
    | .error e =>
      if e.status = some 429 ∧ remaining ≠ 0 then
        retryGo fn (attempt + 1) (acc + backoffDelay attempt) remaining
      else .err e acc attempt

/-- retryWithBackoff from both scripts: run fn for attempts 1..maxRetries;
on an error with status 429 before the last attempt, sleep the backoff
delay and retry; otherwise rethrow; after the loop throw
"Max retries exceeded".  The default maxRetries in the source is 3. -/
def retryWithBackoff {α : Type u} (fn : Nat → Except JsError α) (maxRetries : Nat) :
    RetryResult α :=
  retryGo fn 1 0 maxRetries

/-! ### Per-product embedding step shared by both pipelines -/

/-- Outcome of the embeddings.embedQuery call wrapped in retryWithBackoff
for one product text, with the source default of 3 attempts.  The
provider is modelled as a map from the query text and the attempt
number to that attempt outcome. -/
def embedResult (P : String → Nat → Except JsError (List Float)) (text : String) :
    RetryResult (List Float) :=
  retryWithBackoff (P text) 3

/-- Whether the retried embedding call for a product succeeds. -/
def embedSucceeds (P : String → Nat → Except JsError (List Float)) (q : MongoProduct) :
    Bool :=
  match embedResult P q.embedding_text with
  | .ok _ _ _ => true
  | _ => false

/-- The document a product becomes after its embedding call: the spread
with the embedding attached on success, the product unchanged on
failure. -/
def embedOne (P : String → Nat → Except JsError (List Float)) (q : MongoProduct) :
    MongoProduct :=
  match embedResult P q.embedding_text with
  | .ok emb _ _ => { q with embedding := some emb }
  | _ => q

/-- The optional enriched document used by the migration script, which
keeps a product only when its embedding call succeeds. -/
def embedOpt (P : String → Nat → Except JsError (List Float)) (q : MongoProduct) :
    Option MongoProduct :=
  match embedResult P q.embedding_text with
  | .ok emb _ _ => some { q with embedding := some emb }
  | _ => none

/-! ### Batch windows -/

/-- Fuel-driven body of chunking; the fuel is the list length, and each
step consumes at least one element. -/
def chunkListAux {α : Type u} (n : Nat) : Nat → List α → List (List α)
  | 0, _ => []
  | _, [] => []
  | fuel + 1, x :: xs => (x :: xs.take (n - 1)) :: chunkListAux n fuel (xs.drop (n - 1))

/-- Model of the batching loop header for (let i = 0; i < N; i += SIZE)
with slice(i, i + SIZE): the list cut into consecutive windows of n
elements (the last window may be shorter). -/
def chunkList {α : Type u} (n : Nat) (l : List α) : List (List α) :=
  chunkListAux n l.length l

/-! ### File-export pipeline (export-to-json.ts) -/

/-- Mutable state of the export embedding loop: the accumulated output
array, the success and failure counters, and a ghost count of
Embedding Client invocations (one retryWithBackoff call per product). -/
structure BatchState where
  out : List MongoProduct
  successCount : Nat
  failCount : Nat
  embedCalls : Nat
deriving Repr

/-- One iteration of the inner product loop of exportToJson: on success
push the product with its embedding and bump successCount; on any
thrown error push the product unchanged (kept for manual fix later) and
bump failCount. -/
def exportStep (P : String → Nat → Except JsError (List Float))
    (st : BatchState) (q : MongoProduct) : BatchState :=
  match embedResult P q.embedding_text with
  | .ok emb _ _ =>
    { st with
      out := st.out ++ [{ q with embedding := some emb }]
      successCount := st.successCount + 1
      embedCalls := st.embedCalls + 1 }
  | _ =>
    { st with
      out := st.out ++ [q]
      failCount := st.failCount + 1
      embedCalls := st.embedCalls + 1 }

/-- Observable outcome of one exportToJson run: whether the output file
was written, the array serialized into it, and the final counters. -/
structure ExportRun where
  fileWritten : Bool
  output : List MongoProduct
  successCount : Nat
  failCount : Nat
  embedCalls : Nat
deriving Repr

/-- exportToJson from export-to-json.ts, with the external embedding
provider as an explicit oracle P: extract (given here as the record
list), exit early when no products were found, otherwise transform all
records, process them in windows of BATCH_SIZE = 25, and write the
accumulated array to the output file. -/
def exportToJson (P : String → Nat → Except JsError (List Float))
    (sqliteProducts : List SQLiteProduct) : ExportRun :=
  if sqliteProducts.length = 0 then
    { fileWritten := false, output := [], successCount := 0, failCount := 0, embedCalls := 0 }
  else
    let mongoProducts := sqliteProducts.map transformProduct
    let final := (chunkList 25 mongoProducts).foldl
      (fun st batch => batch.foldl (exportStep P) st)
      { out := [], successCount := 0, failCount := 0, embedCalls := 0 }
    { fileWritten := true
      output := final.out
      successCount := final.successCount
      failCount := final.failCount
      embedCalls := final.embedCalls }

/-! ### Document-store pipeline (migration script) -/

/-- One iteration of the product loop of generateEmbeddingsForBatch:
push the product with its embedding on success; on any thrown error log
and continue with the next product, pushing nothing. -/
def genStep (P : String → Nat → Except JsError (List Float))
    (acc : List MongoProduct) (q : MongoProduct) : List MongoProduct :=
  match embedResult P q.embedding_text with
  | .ok emb _ _ => acc ++ [{ q with embedding := some emb }]
  | _ => acc

/-- generateEmbeddingsForBatch from the migration script: build the list
of products whose embedding call succeeded, each with its embedding
attached; a product whose call fails is logged and not pushed. -/
def generateEmbeddingsForBatch (P : String → Nat → Except JsError (List Float))
    (products : List MongoProduct) : List MongoProduct :=
  products.foldl (genStep P) []

/-- Outcome of one collection.insertOne call, supplied by an oracle
indexed by the position of the insert in the run: success, a
duplicate-key error (MongoDB code 11000), or any other error. -/
inductive InsertOutcome where
  | ok
  | dupKey
  | hardErr
deriving DecidableEq, Repr

/-- State threaded through insertProductsToMongo: the collection
contents, the success and failed counters returned by the function, and
the running insert index consumed by the oracle. -/
structure InsertState where
  items : List MongoProduct
  success : Nat
  failed : Nat
  idx : Nat
deriving Repr

/-- One iteration of the insert loop: a successful insertOne appends the
document and bumps success; an error with code 11000 logs a duplicate
skip, any other error logs a failure, and both bump the same failed
counter; the loop always continues. -/
def insertOneStep (O : Nat → InsertOutcome) (st : InsertState) (q : MongoProduct) :
    InsertState :=
  match O st.idx with
  | .ok =>
    { st with items := st.items ++ [q], success := st.success + 1, idx := st.idx + 1 }
  | .dupKey => { st with failed := st.failed + 1, idx := st.idx + 1 }
  | .hardErr => { st with failed := st.failed + 1, idx := st.idx + 1 }

/-- insertProductsToMongo from the migration script, over an explicit
collection state and insert-outcome oracle. -/
def insertProductsToMongo (O : Nat → InsertOutcome) (st : InsertState)
    (products : List MongoProduct) : InsertState :=
  products.foldl (insertOneStep O) st

/-- The sublist of products whose insert succeeds, starting the oracle
at index i: the documents a run of the insert loop adds to the
collection. -/
def insertedList (O : Nat → InsertOutcome) : Nat → List MongoProduct → List MongoProduct
  | _, [] => []
  | i, q :: qs =>
    match O i with
    | .ok => q :: insertedList O (i + 1) qs
    | _ => insertedList O (i + 1) qs

/-- The number of failed inserts (duplicate-key or hard), starting the
oracle at index i. -/
def failedCount (O : Nat → InsertOutcome) : Nat → List MongoProduct → Nat
  | _, [] => 0
  | i, _ :: qs =>
    (match O i with | .ok => 0 | _ => 1) + failedCount O (i + 1) qs

/-- Observable outcome of one run of the migration script. -/
structure MigrateResult where
  items : List MongoProduct
  purged : Bool
  totalSuccess : Nat
  totalFailed : Nat
  embedCalls : Nat
deriving Repr

/-- migrate from the migration script, with the embedding provider and
the insert outcomes as oracles and the prior collection contents as an
explicit initial state: exit early when extraction returns no rows;
otherwise transform all rows, provision the index (no effect on the
collection contents), delete every existing document, then process the
records in windows of BATCH_SIZE = 50, generating embeddings for each
window and inserting the surviving documents, accumulating the insert
counters into the final report. -/
def migrate (P : String → Nat → Except JsError (List Float))
    (O : Nat → InsertOutcome) (initItems : List MongoProduct)
    (sqliteProducts : List SQLiteProduct) : MigrateResult :=
  if sqliteProducts.length = 0 then
    { items := initItems, purged := false, totalSuccess := 0, totalFailed := 0,
      embedCalls := 0 }
  else
    let mongoProducts := sqliteProducts.map transformProductToMongoSchema
    let batches := chunkList 50 mongoProducts
    let final := batches.foldl
      (fun st batch => insertProductsToMongo O st (generateEmbeddingsForBatch P batch))
      { items := [], success := 0, failed := 0, idx := 0 }
    { items := final.items
      purged := true
      totalSuccess := final.success
      totalFailed := final.failed
      embedCalls := batches.foldl (fun n batch => n + batch.length) 0 }

/-! ### Helper lemmas: trimming -/

theorem dropWhile_dropWhile {α : Type u} (p : α → Bool) (l : List α) :
    (l.dropWhile p).dropWhile p = l.dropWhile p := by
  induction l with
  | nil => rfl
  | cons a l ih =>
    by_cases h : p a
    · simp [List.dropWhile_cons, h, ih]
    · simp [List.dropWhile_cons, h]

theorem dropWhile_length_le {α : Type u} (p : α → Bool) (l : List α) :
    (l.dropWhile p).length ≤ l.length := by
  induction l with
  | nil => exact Nat.le_refl _
  | cons a l ih =>
    by_cases h : p a
    · rw [List.dropWhile_cons, if_pos h]
      exact Nat.le_trans ih (Nat.le_succ _)
    · rw [List.dropWhile_cons, if_neg h]

theorem dropWhile_fix_head {α : Type u} (p : α → Bool) (a : α) (l : List α)
    (h : (a :: l).dropWhile p = a :: l) : p a = false := by
  by_cases hp : p a
  · rw [List.dropWhile_cons, if_pos hp] at h
    have hlen := congrArg List.length h
    have hle := dropWhile_length_le p l
    simp at hlen
    omega
  · simpa using hp

theorem dropWhile_fix_append_left {α : Type u} (p : α → Bool) (t w : List α)
    (h : (t ++ w).dropWhile p = t ++ w) : t.dropWhile p = t := by
  cases t with
  | nil => rfl
  | cons a tl =>
    have ha : p a = false := dropWhile_fix_head p a (tl ++ w) (by simpa using h)
    simp [List.dropWhile_cons, ha]

theorem trim_end_fix {α : Type u} (p : α → Bool) (u : List α) (hu : u.dropWhile p = u) :
    (((u.reverse).dropWhile p).reverse.dropWhile p = ((u.reverse).dropWhile p).reverse)
    ∧ ((((u.reverse).dropWhile p).reverse.reverse).dropWhile p
        = ((u.reverse).dropWhile p).reverse.reverse) := by
  have hsplit : u = ((u.reverse).dropWhile p).reverse ++ ((u.reverse).takeWhile p).reverse := by
    conv_lhs =>
      rw [← List.reverse_reverse u,
        ← List.takeWhile_append_dropWhile (p := p) (l := u.reverse)]
    rw [List.reverse_append]
  constructor
  · exact dropWhile_fix_append_left p _ _ (by rw [← hsplit]; exact hu)
  · rw [List.reverse_reverse]
    exact dropWhile_dropWhile p u.reverse

theorem trimChars_idem (cs : List Char) : trimChars (trimChars cs) = trimChars cs := by
  have hu : (cs.dropWhile jsWsChar).dropWhile jsWsChar = cs.dropWhile jsWsChar :=
    dropWhile_dropWhile jsWsChar cs
  obtain ⟨h1, h2⟩ := trim_end_fix jsWsChar (cs.dropWhile jsWsChar) hu
  unfold trimChars
  rw [h1, h2, List.reverse_reverse]

theorem trimStr_idem (s : String) : trimStr (trimStr s) = trimStr s := by
  unfold trimStr
  rw [show (String.mk (trimChars s.data)).data = trimChars s.data from rfl,
    trimChars_idem]

/-! ### Helper lemmas: batch windows -/

theorem chunkListAux_flatten {α : Type u} (n : Nat) :
    ∀ (fuel : Nat) (l : List α), l.length ≤ fuel → (chunkListAux n fuel l).flatten = l := by
  intro fuel
  induction fuel with
  | zero =>
    intro l h
    have : l = [] := List.eq_nil_of_length_eq_zero (Nat.le_zero.mp h)
    subst this; rfl
  | succ fuel ih =>
    intro l h
    match l with
    | [] => rfl
    | x :: xs =>
      rw [chunkListAux, List.flatten_cons]
      rw [ih (xs.drop (n - 1)) (by simp at h ⊢; omega)]
      simp [List.take_append_drop]

theorem chunkList_flatten {α : Type u} (n : Nat) (l : List α) :
    (chunkList n l).flatten = l :=
  chunkListAux_flatten n l.length l (Nat.le_refl _)

theorem foldl_foldl_flatten {α : Type u} {β : Type v} (f : β → α → β) :
    ∀ (L : List (List α)) (init : β),
      L.foldl (fun st b => b.foldl f st) init = L.flatten.foldl f init := by
  intro L
  induction L with
  | nil => intro init; rfl
  | cons b L ih => intro init; rw [List.flatten_cons, List.foldl_append, List.foldl_cons, ih]

theorem foldl_chunkList {α : Type u} {β : Type v} (f : β → α → β) (n : Nat) (l : List α)
    (init : β) :
    (chunkList n l).foldl (fun st b => b.foldl f st) init = l.foldl f init := by
  rw [foldl_foldl_flatten, chunkList_flatten]

theorem foldl_length_flatten {α : Type u} :
    ∀ (L : List (List α)) (acc : Nat),
      L.foldl (fun m b => m + b.length) acc = acc + L.flatten.length := by
  intro L
  induction L with
  | nil => intro acc; simp
  | cons b L ih => intro acc; simp [ih, List.length_append]; omega

theorem countP_add_countP_not {α : Type u} (p : α → Bool) :
    ∀ l : List α, l.countP p + l.countP (fun a => !p a) = l.length := by
  intro l
  induction l with
  | nil => rfl
  | cons a l ih =>
    rw [List.countP_cons, List.countP_cons, List.length_cons]
    cases h : p a <;> simp [h] <;> omega

/-! ### Helper lemmas: the export embedding loop -/

theorem exportFold_spec (P : String → Nat → Except JsError (List Float)) :
    ∀ (qs : List MongoProduct) (st : BatchState),
      qs.foldl (exportStep P) st =
        { out := st.out ++ qs.map (embedOne P)
          successCount := st.successCount + qs.countP (fun q => embedSucceeds P q)
          failCount := st.failCount + qs.countP (fun q => !(embedSucceeds P q))
          embedCalls := st.embedCalls + qs.length } := by
  intro qs
  induction qs with
  | nil => intro st; simp
  | cons q qs ih =>
    intro st
    rw [List.foldl_cons, ih]
    cases h : embedResult P q.embedding_text with
    | ok emb d a =>
      have h1 : exportStep P st q =
          { st with
            out := st.out ++ [{ q with embedding := some emb }]
            successCount := st.successCount + 1
            embedCalls := st.embedCalls + 1 } := by
        simp [exportStep, h]
      have h2 : embedOne P q = { q with embedding := some emb } := by
        simp [embedOne, h]
      have h3 : embedSucceeds P q = true := by
        simp [embedSucceeds, h]
      rw [h1]
      simp only [List.map_cons, List.countP_cons, h2, h3, BatchState.mk.injEq]
      refine ⟨by simp, by simp; omega, by simp, by simp [List.length_cons]; omega⟩
    | err e d a =>
      have h1 : exportStep P st q =
          { st with
            out := st.out ++ [q]
            failCount := st.failCount + 1
            embedCalls := st.embedCalls + 1 } := by
        simp [exportStep, h]
      have h2 : embedOne P q = q := by
        simp [embedOne, h]
      have h3 : embedSucceeds P q = false := by
        simp [embedSucceeds, h]
      rw [h1]
      simp only [List.map_cons, List.countP_cons, h2, h3, BatchState.mk.injEq]
      refine ⟨by simp, by simp, by simp; omega, by simp [List.length_cons]; omega⟩
    | exhausted d =>
      have h1 : exportStep P st q =
          { st with
            out := st.out ++ [q]
            failCount := st.failCount + 1
            embedCalls := st.embedCalls + 1 } := by
        simp [exportStep, h]
      have h2 : embedOne P q = q := by
        simp [embedOne, h]
      have h3 : embedSucceeds P q = false := by
        simp [embedSucceeds, h]
      rw [h1]
      simp only [List.map_cons, List.countP_cons, h2, h3, BatchState.mk.injEq]
      refine ⟨by simp, by simp, by simp; omega, by simp [List.length_cons]; omega⟩

/-! ### Helper lemmas: generateEmbeddingsForBatch -/

theorem genStep_eq (P : String → Nat → Except JsError (List Float))
    (acc : List MongoProduct) (q : MongoProduct) :
    genStep P acc q = acc ++ (embedOpt P q).toList := by
  unfold genStep embedOpt
  cases h : embedResult P q.embedding_text with
  | ok emb d a => simp
  | err e d a => simp
  | exhausted d => simp

theorem generateEmbeddingsForBatch_eq_filterMap
    (P : String → Nat → Except JsError (List Float)) (qs : List MongoProduct) :
    generateEmbeddingsForBatch P qs = qs.filterMap (embedOpt P) := by
  suffices h : ∀ (qs : List MongoProduct) (acc : List MongoProduct),
      qs.foldl (genStep P) acc = acc ++ qs.filterMap (embedOpt P) by
    simpa [generateEmbeddingsForBatch] using h qs []
  intro qs
  induction qs with
  | nil => intro acc; simp
  | cons q qs ih =>
    intro acc
    rw [List.foldl_cons, List.filterMap_cons, genStep_eq, ih]
    cases h : embedOpt P q with
    | none => simp
    | some r => simp

theorem generateEmbeddingsForBatch_append
    (P : String → Nat → Except JsError (List Float)) (qs rs : List MongoProduct) :
    generateEmbeddingsForBatch P (qs ++ rs)
      = generateEmbeddingsForBatch P qs ++ generateEmbeddingsForBatch P rs := by
  simp [generateEmbeddingsForBatch_eq_filterMap]

theorem generateEmbeddingsForBatch_flatten
    (P : String → Nat → Except JsError (List Float)) :
    ∀ (L : List (List MongoProduct)),
      generateEmbeddingsForBatch P L.flatten
        = (L.map (generateEmbeddingsForBatch P)).flatten := by
  intro L
  induction L with
  | nil => simp [generateEmbeddingsForBatch]
  | cons b L ih =>
    rw [List.flatten_cons, generateEmbeddingsForBatch_append, List.map_cons,
      List.flatten_cons, ih]

theorem embedOpt_ok (P : String → Nat → Except JsError (List Float)) (q : MongoProduct)
    (emb : List Float) (d a : Nat) (h : embedResult P q.embedding_text = .ok emb d a) :
    embedOpt P q = some { q with embedding := some emb } := by
  simp [embedOpt, h]

theorem generateEmbeddingsForBatch_length
    (P : String → Nat → Except JsError (List Float)) (qs : List MongoProduct) :
    (generateEmbeddingsForBatch P qs).length = qs.countP (fun q => embedSucceeds P q) := by
  rw [generateEmbeddingsForBatch_eq_filterMap]
  induction qs with
  | nil => rfl
  | cons q qs ih =>
    rw [List.filterMap_cons, List.countP_cons]
    cases h : embedResult P q.embedding_text with
    | ok emb d a =>
      have h1 : embedOpt P q = some { q with embedding := some emb } := by simp [embedOpt, h]
      have h2 : embedSucceeds P q = true := by simp [embedSucceeds, h]
      simp [h1, h2, ih]
    | err e d a =>
      have h1 : embedOpt P q = none := by simp [embedOpt, h]
      have h2 : embedSucceeds P q = false := by simp [embedSucceeds, h]
      simp [h1, h2, ih]
    | exhausted d =>
      have h1 : embedOpt P q = none := by simp [embedOpt, h]
      have h2 : embedSucceeds P q = false := by simp [embedSucceeds, h]
      simp [h1, h2, ih]

theorem embedSucceeds_false_embedOne (P : String → Nat → Except JsError (List Float))
    (q : MongoProduct) (h : embedSucceeds P q = false) : embedOne P q = q := by
  unfold embedOne
  unfold embedSucceeds at h
  cases he : embedResult P q.embedding_text with
  | ok emb d a => rw [he] at h; simp at h
  | err e d a => simp [he]
  | exhausted d => simp [he]

theorem embedSucceeds_isSome_embedOne (P : String → Nat → Except JsError (List Float))
    (q : MongoProduct) (h : q.embedding = none) :
    (embedOne P q).embedding.isSome = embedSucceeds P q := by
  unfold embedOne embedSucceeds
  cases he : embedResult P q.embedding_text with
  | ok emb d a => simp
  | err e d a => simp [h]
  | exhausted d => simp [h]

/-! ### Helper lemmas: the insert loop -/

theorem insertFold_spec (O : Nat → InsertOutcome) :
    ∀ (qs : List MongoProduct) (st : InsertState),
      insertProductsToMongo O st qs =
        { items := st.items ++ insertedList O st.idx qs
          success := st.success + (insertedList O st.idx qs).length
          failed := st.failed + failedCount O st.idx qs
          idx := st.idx + qs.length } := by
  intro qs
  induction qs with
  | nil => intro st; simp [insertProductsToMongo, insertedList, failedCount]
  | cons q qs ih =>
    intro st
    rw [show insertProductsToMongo O st (q :: qs)
        = insertProductsToMongo O (insertOneStep O st q) qs from rfl, ih]
    unfold insertOneStep
    cases h : O st.idx with
    | ok =>
      simp only [h, insertedList, failedCount, InsertState.mk.injEq]
      refine ⟨by simp, ?_, ?_, ?_⟩ <;> simp [List.length_cons] <;> omega
    | dupKey =>
      simp only [h, insertedList, failedCount, InsertState.mk.injEq]
      simp [List.length_cons]
      try omega
    | hardErr =>
      simp only [h, insertedList, failedCount, InsertState.mk.injEq]
      simp [List.length_cons]
      try omega

theorem insertedList_length_add_failedCount (O : Nat → InsertOutcome) :
    ∀ (qs : List MongoProduct) (i : Nat),
      (insertedList O i qs).length + failedCount O i qs = qs.length := by
  intro qs
  induction qs with
  | nil => intro i; rfl
  | cons q qs ih =>
    intro i
    unfold insertedList failedCount
    cases h : O i with
    | ok => have := ih (i + 1); simp [List.length_cons]; omega
    | dupKey => have := ih (i + 1); simp [List.length_cons]; omega
    | hardErr => have := ih (i + 1); simp [List.length_cons]; omega

theorem mem_insertedList (O : Nat → InsertOutcome) :
    ∀ (qs : List MongoProduct) (i : Nat) (d : MongoProduct),
      d ∈ insertedList O i qs → d ∈ qs := by
  intro qs
  induction qs with
  | nil => intro i d h; simp [insertedList] at h
  | cons q qs ih =>
    intro i d h
    unfold insertedList at h
    cases ho : O i with
    | ok =>
      rw [ho] at h
      rcases List.mem_cons.mp h with h1 | h2
      · exact h1 ▸ List.mem_cons_self q qs
      · exact List.mem_cons_of_mem q (ih (i + 1) d h2)
    | dupKey => rw [ho] at h; exact List.mem_cons_of_mem q (ih (i + 1) d h)
    | hardErr => rw [ho] at h; exact List.mem_cons_of_mem q (ih (i + 1) d h)

/-! ### Helper lemmas: the retry loop -/

theorem retryGo_succ_ok {α : Type u} (fn : Nat → Except JsError α) (attempt acc r : Nat)
    (v : α) (h : fn attempt = .ok v) :
    retryGo fn attempt acc (r + 1) = .ok v acc attempt := by
  simp [retryGo, h]

theorem retryGo_succ_err_retry {α : Type u} (fn : Nat → Except JsError α)
    (attempt acc r : Nat) (e : JsError) (h : fn attempt = .error e)
    (h429 : e.status = some 429) (hr : r ≠ 0) :
    retryGo fn attempt acc (r + 1) = retryGo fn (attempt + 1) (acc + backoffDelay attempt) r := by
  simp [retryGo, h, h429, hr]

theorem retryGo_succ_err_stop {α : Type u} (fn : Nat → Except JsError α)
    (attempt acc r : Nat) (e : JsError) (h : fn attempt = .error e)
    (hstop : ¬(e.status = some 429 ∧ r ≠ 0)) :
    retryGo fn attempt acc (r + 1) = .err e acc attempt := by
  simp [retryGo, h]
  intro h429 hr
  exact absurd ⟨h429, hr⟩ hstop

theorem retryGo_result : ∀ (remaining : Nat), remaining ≠ 0 →
    ∀ {α : Type u} (fn : Nat → Except JsError α) (attempt acc : Nat),
    (∃ v d a, retryGo fn attempt acc remaining = .ok v d a
        ∧ fn a = .ok v ∧ attempt ≤ a ∧ a < attempt + remaining)
    ∨ (∃ e d a, retryGo fn attempt acc remaining = .err e d a
        ∧ fn a = .error e ∧ attempt ≤ a ∧ a < attempt + remaining) := by
  intro remaining
  induction remaining with
  | zero => intro h; exact absurd rfl h
  | succ r ih =>
    intro _ α fn attempt acc
    cases hf : fn attempt with
    | ok v =>
      exact Or.inl ⟨v, acc, attempt, retryGo_succ_ok fn attempt acc r v hf, hf,
        Nat.le_refl _, by omega⟩
    | error e =>
      by_cases hc : e.status = some 429 ∧ r ≠ 0
      · rw [retryGo_succ_err_retry fn attempt acc r e hf hc.1 hc.2]
        rcases ih hc.2 fn (attempt + 1) (acc + backoffDelay attempt) with
          ⟨v, d, a, hres, hfa, ha1, ha2⟩ | ⟨e2, d, a, hres, hfa, ha1, ha2⟩
        · exact Or.inl ⟨v, d, a, hres, hfa, by omega, by omega⟩
        · exact Or.inr ⟨e2, d, a, hres, hfa, by omega, by omega⟩
      · exact Or.inr ⟨e, acc, attempt, retryGo_succ_err_stop fn attempt acc r e hf hc, hf,
          Nat.le_refl _, by omega⟩

theorem retryGo_ok_only_429 : ∀ (remaining : Nat) {α : Type u}
    (fn : Nat → Except JsError α) (attempt acc : Nat) (v : α) (d a : Nat),
    retryGo fn attempt acc remaining = .ok v d a →
    ∀ k, attempt ≤ k → k < a → ∃ e, fn k = .error e ∧ e.status = some 429 := by
  intro remaining
  induction remaining with
  | zero =>
    intro α fn attempt acc v d a h
    exact absurd h (by simp [retryGo])
  | succ r ih =>
    intro α fn attempt acc v d a h k hk1 hk2
    cases hf : fn attempt with
    | ok w =>
      rw [retryGo_succ_ok fn attempt acc r w hf] at h
      have ha : attempt = a := by
        cases h
        rfl
      omega
    | error e =>
      by_cases hc : e.status = some 429 ∧ r ≠ 0
      · rw [retryGo_succ_err_retry fn attempt acc r e hf hc.1 hc.2] at h
        by_cases hk : k = attempt
        · exact ⟨e, hk ▸ hf, hc.1⟩
        · exact ih fn (attempt + 1) (acc + backoffDelay attempt) v d a h k (by omega) hk2
      · rw [retryGo_succ_err_stop fn attempt acc r e hf hc] at h
        cases h

/-! ### Helper lemmas: whole-run closed forms -/

theorem exportToJson_spec (P : String → Nat → Except JsError (List Float))
    (ps : List SQLiteProduct) (h : ps.length ≠ 0) :
    exportToJson P ps =
      { fileWritten := true
        output := (ps.map transformProduct).map (embedOne P)
        successCount := (ps.map transformProduct).countP (fun q => embedSucceeds P q)
        failCount := (ps.map transformProduct).countP (fun q => !(embedSucceeds P q))
        embedCalls := ps.length } := by
  unfold exportToJson
  rw [if_neg h]
  dsimp only
  rw [foldl_chunkList (exportStep P) 25 (ps.map transformProduct)]
  rw [exportFold_spec]
  simp [List.length_map]

theorem migrateLoop_flatten (P : String → Nat → Except JsError (List Float))
    (O : Nat → InsertOutcome) :
    ∀ (L : List (List MongoProduct)) (st : InsertState),
      L.foldl (fun st batch => insertProductsToMongo O st (generateEmbeddingsForBatch P batch)) st
        = insertProductsToMongo O st (generateEmbeddingsForBatch P L.flatten) := by
  intro L
  induction L with
  | nil => intro st; simp [generateEmbeddingsForBatch, insertProductsToMongo]
  | cons b L ih =>
    intro st
    rw [List.foldl_cons, ih, List.flatten_cons, generateEmbeddingsForBatch_append]
    simp [insertProductsToMongo, List.foldl_append]

theorem migrate_spec (P : String → Nat → Except JsError (List Float))
    (O : Nat → InsertOutcome) (initItems : List MongoProduct)
    (ps : List SQLiteProduct) (h : ps.length ≠ 0) :
    migrate P O initItems ps =
      { items := insertedList O 0
          (generateEmbeddingsForBatch P (ps.map transformProductToMongoSchema))
        purged := true
        totalSuccess := (insertedList O 0
          (generateEmbeddingsForBatch P (ps.map transformProductToMongoSchema))).length
        totalFailed := failedCount O 0
          (generateEmbeddingsForBatch P (ps.map transformProductToMongoSchema))
        embedCalls := ps.length } := by
  unfold migrate
  rw [if_neg h]
  dsimp only
  rw [migrateLoop_flatten, chunkList_flatten, insertFold_spec]
  rw [foldl_length_flatten, chunkList_flatten]
  simp [List.length_map]

/-! ### Concrete scenario data

A three-record extraction in which the second record is the one whose
embedding call always fails with a non-rate-limit error, as in the
end-to-end scenario of the specification. -/

/-- A source row with the given title; the tags column is empty and all
other columns are fixed short strings. -/
def sampleRow (t : String) : SQLiteProduct :=
  { sku := "SKU-" ++ t, handle := "h", title := t, description := "d", vendor := "v",
    price := 10, currency := "USD", image_url := "i", product_url := "u",
    tags := "", search_content := "s" }

def rowAlpha : SQLiteProduct := sampleRow "alpha"

def rowBeta : SQLiteProduct := sampleRow "beta"

def rowGamma : SQLiteProduct := sampleRow "gamma"

def scenarioRows : List SQLiteProduct := [rowAlpha, rowBeta, rowGamma]

/-- A fixed 768-dimensional embedding vector. -/
def vec768 : List Float := List.replicate 768 1.0

/-- Embedding provider for which every attempt succeeds. -/
def embedAllOk : String → Nat → Except JsError (List Float) := fun _ _ => .ok vec768

/-- Embedding provider for which every attempt on the text of the beta
record fails with a non-rate-limit error, and every other attempt
succeeds. -/
def failBeta : String → Nat → Except JsError (List Float) := fun text _ =>
  if text = (transformProduct rowBeta).embedding_text then
    .error { status := none, message := "boom" }
  else .ok vec768

/-- Insert oracle for which every insertOne succeeds. -/
def insertAllOk : Nat → InsertOutcome := fun _ => .ok

example : embedSucceeds failBeta (transformProduct rowAlpha) = true := by decide
example : embedSucceeds failBeta (transformProduct rowBeta) = false := by decide
example : embedSucceeds failBeta (transformProduct rowGamma) = true := by decide

/-! ### Claims C4 and C9: the retry policy -/

/-- C4: for every wrapped function, the Embedding Client retries only on
an error whose status field signals rate limiting (429), sleeping
backoffDelay attempt = min(1000 * 2 ^ attempt, 30000) milliseconds
before each retry.  With the default 3 attempts, a function failing with
a rate-limit error exactly twice then succeeding returns the success
value on attempt 3 (exactly 2 retries) with total delay
backoffDelay 1 + backoffDelay 2, which is at least base + 2 * base for
base = 1000; a non-rate-limit error on the first attempt propagates
immediately with zero delay for every maxRetries of at least 1; a
rate-limit error on all 3 attempts propagates after the second backoff
with no further delay; and every attempt before a successful one was a
rate-limit failure. -/
theorem retry_policy :
    (∀ (α : Type) (fn : Nat → Except JsError α) (v : α) (e : JsError),
       e.status = some 429 → fn 1 = .error e → fn 2 = .error e → fn 3 = .ok v →
       retryWithBackoff fn 3 = .ok v (backoffDelay 1 + backoffDelay 2) 3
         ∧ backoffDelay 1 + backoffDelay 2 ≥ 1000 + 2 * 1000)
    ∧ (∀ (α : Type) (fn : Nat → Except JsError α) (e : JsError) (maxRetries : Nat),
         1 ≤ maxRetries → e.status ≠ some 429 → fn 1 = .error e →
         retryWithBackoff fn maxRetries = .err e 0 1)
    ∧ (∀ (α : Type) (fn : Nat → Except JsError α) (e : JsError),
         e.status = some 429 → fn 1 = .error e → fn 2 = .error e → fn 3 = .error e →
         retryWithBackoff fn 3 = .err e (backoffDelay 1 + backoffDelay 2) 3)
    ∧ (∀ (α : Type) (fn : Nat → Except JsError α) (maxRetries : Nat) (v : α) (d a : Nat),
         retryWithBackoff fn maxRetries = .ok v d a →
         ∀ k, 1 ≤ k → k < a → ∃ e, fn k = .error e ∧ e.status = some 429) := by
  refine ⟨?_, ?_, ?_, ?_⟩
  · intro α fn v e h429 hf1 hf2 hf3
    constructor
    · unfold retryWithBackoff
      rw [show (3 : Nat) = 2 + 1 from rfl,
        retryGo_succ_err_retry fn 1 0 2 e hf1 h429 (by omega),
        retryGo_succ_err_retry fn 2 (0 + backoffDelay 1) 1 e hf2 h429 (by omega),
        retryGo_succ_ok fn 3 (0 + backoffDelay 1 + backoffDelay 2) 0 v hf3]
      rw [Nat.zero_add]
    · simp [backoffDelay]
  · intro α fn e maxRetries hmax hne hf1
    obtain ⟨r, rfl⟩ : ∃ r, maxRetries = r + 1 :=
      ⟨maxRetries - 1, by omega⟩
    unfold retryWithBackoff
    exact retryGo_succ_err_stop fn 1 0 r e hf1 (by intro hc; exact hne hc.1)
  · intro α fn e h429 hf1 hf2 hf3
    unfold retryWithBackoff
    rw [show (3 : Nat) = 2 + 1 from rfl,
      retryGo_succ_err_retry fn 1 0 2 e hf1 h429 (by omega),
      retryGo_succ_err_retry fn 2 (0 + backoffDelay 1) 1 e hf2 h429 (by omega),
      retryGo_succ_err_stop fn 3 (0 + backoffDelay 1 + backoffDelay 2) 0 e hf3
        (by intro hc; exact hc.2 rfl)]
    rw [Nat.zero_add]
  · intro α fn maxRetries v d a h k hk1 hk2
    exact retryGo_ok_only_429 maxRetries fn 1 0 v d a h k hk1 hk2

/-- Function failing with a rate-limit error on attempts 1 and 2 and
succeeding from attempt 3 on. -/
def fnTwice429 : Nat → Except JsError Nat := fun n =>
  if n ≤ 2 then .error { status := some 429, message := "rate" } else .ok 7

/-- Function failing with a non-rate-limit error on every attempt. -/
def fnHardFail : Nat → Except JsError Nat := fun _ =>
  .error { status := none, message := "bad" }

/-- Witness for C4 at concrete functions: two rate-limit failures then
success yields the success value on attempt 3 with 6000 ms of backoff,
and a hard failure propagates immediately with zero delay. -/
theorem retry_policy_witness :
    retryWithBackoff fnTwice429 3 = .ok 7 (backoffDelay 1 + backoffDelay 2) 3
    ∧ backoffDelay 1 + backoffDelay 2 ≥ 1000 + 2 * 1000
    ∧ retryWithBackoff fnHardFail 3
        = .err { status := none, message := "bad" } 0 1 := by
  have h1 := retry_policy.1 Nat fnTwice429 7 { status := some 429, message := "rate" }
    rfl rfl rfl rfl
  have h2 := retry_policy.2.1 Nat fnHardFail { status := none, message := "bad" } 3
    (by omega) (by simp) rfl
  exact ⟨h1.1, h1.2, h2⟩

/-- C9: for every wrapped function and maxRetries of at least 1,
retryWithBackoff either returns a value the function produced on one of
the attempts 1..maxRetries or propagates an error the function threw on
one of those attempts; the trailing "Max retries exceeded" result after
the attempt loop is unreachable. -/
theorem retryWithBackoff_never_exhausts (α : Type) (fn : Nat → Except JsError α)
    (maxRetries : Nat) (h : 1 ≤ maxRetries) :
    ((∃ v d a, retryWithBackoff fn maxRetries = .ok v d a
        ∧ fn a = .ok v ∧ 1 ≤ a ∧ a ≤ maxRetries)
      ∨ (∃ e d a, retryWithBackoff fn maxRetries = .err e d a
        ∧ fn a = .error e ∧ 1 ≤ a ∧ a ≤ maxRetries))
    ∧ ∀ d, retryWithBackoff fn maxRetries ≠ .exhausted d := by
  have hres := retryGo_result maxRetries (by omega) fn 1 0
  constructor
  · rcases hres with ⟨v, d, a, hr, hfa, ha1, ha2⟩ | ⟨e, d, a, hr, hfa, ha1, ha2⟩
    · exact Or.inl ⟨v, d, a, hr, hfa, ha1, by omega⟩
    · exact Or.inr ⟨e, d, a, hr, hfa, ha1, by omega⟩
  · intro d hcontra
    rcases hres with ⟨v, d2, a, hr, _⟩ | ⟨e, d2, a, hr, _⟩ <;>
      rw [show retryWithBackoff fn maxRetries = retryGo fn 1 0 maxRetries from rfl] at hcontra <;>
      rw [hr] at hcontra <;> cases hcontra

/-- Witness for C9 at a concrete function that succeeds immediately,
with the default maxRetries of 3. -/
theorem retryWithBackoff_never_exhausts_witness :
    ((∃ v d a, retryWithBackoff (fun _ => (.ok 7 : Except JsError Nat)) 3 = .ok v d a
        ∧ (fun _ => (.ok 7 : Except JsError Nat)) a = .ok v ∧ 1 ≤ a ∧ a ≤ 3)
      ∨ (∃ e d a, retryWithBackoff (fun _ => (.ok 7 : Except JsError Nat)) 3 = .err e d a
        ∧ (fun _ => (.ok 7 : Except JsError Nat)) a = .error e ∧ 1 ≤ a ∧ a ≤ 3))
    ∧ ∀ d, retryWithBackoff (fun _ => (.ok 7 : Except JsError Nat)) 3 ≠ .exhausted d :=
  retryWithBackoff_never_exhausts Nat (fun _ => .ok 7) 3 (by omega)

/-! ### Claim C6: embedding_text synthesis -/

/-- Join a list of strings with dot-space, as the specification words
the embedding_text synthesis. -/
def joinDotSpace : List String → String
  | [] => ""
  | [t] => t
  | t :: ts => t ++ ". " ++ joinDotSpace ts

/-- Modelled from the spec (claim C6): embedding_text is the
concatenation, joined with dot-space and trimmed of leading and
trailing whitespace, of the basic info (title, description, "from",
vendor), the pricing line, the tag line when tags are nonempty and the
empty string otherwise, and the raw search_content.  Written from the
specification words, to be compared with the source-derived
generateEmbeddingText. -/
def embeddingTextSpec (p : SQLiteProduct) : String :=
  let tags := parseTags p.tags
  trimStr (joinDotSpace
    [p.title ++ " " ++ p.description ++ " from " ++ p.vendor,
     "Price: " ++ toString p.price ++ " " ++ p.currency,
     if tags ≠ [] then "Tags: " ++ joinComma tags else "",
     p.search_content])

/-- C6: for every source record, the synthesized embedding_text equals
the spec formula (the four components in fixed order, joined with
dot-space, trimmed), and the Transformer is deterministic: applying it
twice to the same record yields an identical document; the migration
script and the export script share the identical transformation. -/
theorem embedding_text_synthesis (p : SQLiteProduct) :
    (transformProduct p).embedding_text = embeddingTextSpec p
    ∧ transformProduct p = transformProduct p
    ∧ transformProductToMongoSchema p = transformProduct p := by
  refine ⟨?_, rfl, rfl⟩
  show generateEmbeddingText p (parseTags p.tags) = embeddingTextSpec p
  unfold generateEmbeddingText embeddingTextSpec
  cases htags : parseTags p.tags with
  | nil =>
    simp [joinDotSpace, String.append_assoc]
    rw [show (". . " : String) = ". " ++ ". " from by decide, String.append_assoc]
  | cons t ts => simp [joinDotSpace, String.append_assoc, List.length_cons]

/-! ### Claim C8: empty extraction -/

/-- C8: for an empty extracted record sequence both runs return early
and successfully: no Embedding Client invocation happens, the file
variant writes no output file, and the document-store variant leaves
the destination untouched. -/
theorem empty_extraction_noop :
    (∀ P : String → Nat → Except JsError (List Float),
      exportToJson P [] =
        { fileWritten := false, output := [], successCount := 0, failCount := 0,
          embedCalls := 0 })
    ∧ (∀ (P : String → Nat → Except JsError (List Float)) (O : Nat → InsertOutcome)
         (initItems : List MongoProduct),
        migrate P O initItems [] =
          { items := initItems, purged := false, totalSuccess := 0, totalFailed := 0,
            embedCalls := 0 }) :=
  ⟨fun _ => rfl, fun _ _ _ => rfl⟩

/-! ### Claim C5: tag normalization -/

/-- C5 counterexample: a tags field that parses as a JSON array is used
verbatim, so the normalized sequence can contain an empty element and
an element with leading and trailing whitespace, contradicting the
claim that for every record the normalized tags contain no empty
elements and no elements with leading or trailing whitespace. -/
theorem json_array_tags_kept_verbatim :
    parseTags "[\"\", \" a \"]" = ["", " a "]
    ∧ "" ∈ parseTags "[\"\", \" a \"]"
    ∧ trimStr " a " ≠ " a " := by
  refine ⟨by decide, by decide, by decide⟩

/-- C5 (amended): when the tags field fails JSON parsing, the
comma-separated fallback produces only nonempty, fully trimmed
elements; and the two particular examples of the claim hold: a JSON
array of clean strings is returned in order, and a comma-separated
string with stray spaces and a trailing comma is trimmed and filtered.
A tags field that parses as a JSON array, however, is kept verbatim. -/
theorem tag_normalization_amended :
    (∀ s : String, jsonParseModel s = none →
      ∀ t, t ∈ parseTags s → t ≠ "" ∧ trimStr t = t)
    ∧ parseTags "[\"a\", \"b\"]" = ["a", "b"]
    ∧ parseTags "a, b ," = ["a", "b"] := by
  refine ⟨?_, by decide, by decide⟩
  intro s hs t ht
  unfold parseTags at ht
  by_cases hempty : s = ""
  · rw [if_pos hempty] at ht
    cases ht
  · simp only [if_neg hempty, hs] at ht
    have hpair := List.mem_filter.mp ht
    refine ⟨by simpa using hpair.2, ?_⟩
    obtain ⟨u, hu, hut⟩ := List.mem_map.mp hpair.1
    rw [← hut]
    exact trimStr_idem u

/-- Witness for C5 at the comma-separated example: the fallback element
"a" is nonempty and trimmed. -/
theorem tag_normalization_amended_witness :
    ("a" ≠ "" ∧ trimStr "a" = "a") ∧ parseTags "a, b ," = ["a", "b"] := by
  have h := tag_normalization_amended
  exact ⟨h.1 "a, b ," (by decide) "a" (by decide), h.2.2⟩

/-! ### Claim C10: file-export output correspondence -/

/-- C10: in the file-export variant the serialized output holds exactly
one entry per extracted record, in extraction order: the output equals
the transformed records mapped through the per-record embedding step,
and for a transformed record (whose embedding field starts absent) the
entry carries an embedding exactly when the retried embedding call
succeeded, the record being written unchanged on failure. -/
theorem export_output_one_entry_per_record
    (P : String → Nat → Except JsError (List Float)) (ps : List SQLiteProduct) :
    (exportToJson P ps).output = ps.map (fun p => embedOne P (transformProduct p))
    ∧ ∀ q : MongoProduct, q.embedding = none →
        ((embedOne P q).embedding.isSome = embedSucceeds P q
         ∧ (embedSucceeds P q = false → embedOne P q = q)) := by
  constructor
  · by_cases h : ps.length = 0
    · have hnil : ps = [] := List.eq_nil_of_length_eq_zero h
      subst hnil; rfl
    · rw [exportToJson_spec P ps h]
      simp [List.map_map]
  · intro q hq
    exact ⟨embedSucceeds_isSome_embedOne P q hq,
      fun hf => embedSucceeds_false_embedOne P q hf⟩

/-- Witness for C10 at the three-record scenario: the output is the
per-record image of the extraction, and the failing record is written
unchanged, hence without an embedding. -/
theorem export_output_one_entry_per_record_witness :
    (exportToJson failBeta scenarioRows).output
        = scenarioRows.map (fun p => embedOne failBeta (transformProduct p))
    ∧ embedOne failBeta (transformProduct rowBeta) = transformProduct rowBeta := by
  have h := export_output_one_entry_per_record failBeta scenarioRows
  exact ⟨h.1, (h.2 (transformProduct rowBeta) rfl).2 (by decide)⟩

/-! ### Claim C1: failed records kept or dropped -/

/-- C1 counterexample: in the document-store pipeline a record whose
embedding generation fails is dropped, not kept.  Extracting 3 records
where the second record's embedding call always fails delivers only 2
records to the Sink (generateEmbeddingsForBatch keeps successes only),
so the claim that every pipeline run delivers all 3 records, one
without an embedding, is false for the migration script. -/
theorem migration_drops_failed_record :
    (generateEmbeddingsForBatch failBeta
        (scenarioRows.map transformProductToMongoSchema)).length = 2
    ∧ (migrate failBeta insertAllOk [] scenarioRows).items.length = 2
    ∧ scenarioRows.length = 3 := by
  refine ⟨by decide, by decide, by decide⟩

/-- C1 (amended): in the file-export variant a record whose embedding
fails is kept: the output has one entry per extracted record, the
failure counter counts exactly the failed records, and every failed
record appears in the output unchanged, hence without an embedding.
In the document-store variant the failed record is dropped from the
Sink input (the batch keeps only the records whose call succeeded),
though the run continues past the failure. -/
theorem export_keeps_failed_records
    (P : String → Nat → Except JsError (List Float)) (ps : List SQLiteProduct) :
    ((exportToJson P ps).output.length = ps.length
     ∧ (exportToJson P ps).failCount
         = (ps.map transformProduct).countP (fun q => !(embedSucceeds P q))
     ∧ ∀ p, p ∈ ps → embedSucceeds P (transformProduct p) = false →
         transformProduct p ∈ (exportToJson P ps).output
         ∧ (transformProduct p).embedding = none)
    ∧ ∀ batch : List MongoProduct,
        (generateEmbeddingsForBatch P batch).length
          = batch.countP (fun q => embedSucceeds P q) := by
  constructor
  · by_cases h : ps.length = 0
    · have hnil : ps = [] := List.eq_nil_of_length_eq_zero h
      subst hnil
      refine ⟨rfl, rfl, ?_⟩
      intro p hp
      cases hp
    · rw [exportToJson_spec P ps h]
      refine ⟨by simp, rfl, ?_⟩
      intro p hp hfail
      refine ⟨?_, rfl⟩
      have hone : embedOne P (transformProduct p) = transformProduct p :=
        embedSucceeds_false_embedOne P _ hfail
      rw [← hone]
      exact List.mem_map_of_mem _ (List.mem_map_of_mem _ hp)
  · intro batch
    exact generateEmbeddingsForBatch_length P batch

/-- Witness for C1 (amended) at the three-record scenario: all 3
records are written, the beta record is present without an embedding,
and the failure counter reads 1. -/
theorem export_keeps_failed_records_witness :
    (exportToJson failBeta scenarioRows).output.length = 3
    ∧ transformProduct rowBeta ∈ (exportToJson failBeta scenarioRows).output
    ∧ (exportToJson failBeta scenarioRows).failCount = 1 := by
  have h := export_keeps_failed_records failBeta scenarioRows
  refine ⟨?_, ?_, ?_⟩
  · rw [h.1.1]; rfl
  · exact (h.1.2.2 rowBeta (by decide) (by decide)).1
  · rw [h.1.2.1]; decide

/-! ### Claim C7: run summary counts -/

/-- C7 counterexample: the migration run summary counts insert
successes and failures, not embedding failures.  In the 3-record run
where the second record's embedding always fails and every insert
succeeds, the final report is 2 migrated and 0 failed, not the claimed
attempted 3, succeeded 2, failed 1; the export variant does report
succeeded 2 and failed 1. -/
theorem migration_summary_misses_embedding_failures :
    (migrate failBeta insertAllOk [] scenarioRows).totalSuccess = 2
    ∧ (migrate failBeta insertAllOk [] scenarioRows).totalFailed = 0
    ∧ (exportToJson failBeta scenarioRows).successCount = 2
    ∧ (exportToJson failBeta scenarioRows).failCount = 1 := by
  refine ⟨by decide, by decide, by decide, by decide⟩

/-- C7 (amended): the file-export summary enumerates embedding outcomes
over all processed records (succeeded plus failed equals the number of
extracted records, so attempted is recoverable as their sum), while the
document-store summary counts insert outcomes over the post-embedding
records only, so records dropped by embedding failure are absent from
its counts. -/
theorem run_summary_counts
    (P : String → Nat → Except JsError (List Float)) (ps : List SQLiteProduct) :
    ((exportToJson P ps).successCount + (exportToJson P ps).failCount = ps.length)
    ∧ ∀ (O : Nat → InsertOutcome) (initItems : List MongoProduct),
        (migrate P O initItems ps).totalSuccess + (migrate P O initItems ps).totalFailed
          = (generateEmbeddingsForBatch P (ps.map transformProductToMongoSchema)).length := by
  constructor
  · by_cases h : ps.length = 0
    · have hnil : ps = [] := List.eq_nil_of_length_eq_zero h
      subst hnil; rfl
    · rw [exportToJson_spec P ps h]
      dsimp only
      rw [countP_add_countP_not (fun q => embedSucceeds P q) (ps.map transformProduct)]
      exact List.length_map ps transformProduct
  · intro O initItems
    by_cases h : ps.length = 0
    · have hnil : ps = [] := List.eq_nil_of_length_eq_zero h
      subst hnil; rfl
    · rw [migrate_spec P O initItems ps h]
      dsimp only
      exact insertedList_length_add_failedCount O _ 0

/-! ### Claim C2: duplicate-key handling -/

/-- The transformed alpha record, used as a sample document. -/
def sampleDoc : MongoProduct := transformProduct rowAlpha

/-- C2 counterexample: a duplicate-key insert failure is counted in the
same failed counter as a hard insert failure; the run outcome of a
single duplicate-key insert is identical to that of a hard failure
(failed = 1, success = 0, document not added), so duplicate-key skips
are not counted separately from hard failures. -/
theorem duplicate_key_counted_with_hard_failures :
    insertProductsToMongo (fun _ => .dupKey)
        { items := [], success := 0, failed := 0, idx := 0 } [sampleDoc]
      = insertProductsToMongo (fun _ => .hardErr)
        { items := [], success := 0, failed := 0, idx := 0 } [sampleDoc]
    ∧ (insertProductsToMongo (fun _ => .dupKey)
        { items := [], success := 0, failed := 0, idx := 0 } [sampleDoc]).failed = 1
    ∧ (insertProductsToMongo (fun _ => .dupKey)
        { items := [], success := 0, failed := 0, idx := 0 } [sampleDoc]).success = 0 := by
  refine ⟨rfl, rfl, rfl⟩

/-- C2 (amended): a duplicate-key insert failure is logged distinctly
but increments the same failed counter as a hard insert failure, and
neither kind of failure aborts the remaining inserts: every product in
the list is attempted, the counters always account for all of them, and
a failing step changes only the failed counter and the insert index. -/
theorem insert_failures_never_abort (O : Nat → InsertOutcome) (st : InsertState)
    (qs : List MongoProduct) :
    ((insertProductsToMongo O st qs).success + (insertProductsToMongo O st qs).failed
        = st.success + st.failed + qs.length)
    ∧ (insertProductsToMongo O st qs).idx = st.idx + qs.length
    ∧ ∀ (st2 : InsertState) (q : MongoProduct),
        (O st2.idx = .dupKey ∨ O st2.idx = .hardErr) →
        insertOneStep O st2 q = { st2 with failed := st2.failed + 1, idx := st2.idx + 1 } := by
  refine ⟨?_, ?_, ?_⟩
  · rw [insertFold_spec]
    dsimp only
    have := insertedList_length_add_failedCount O qs st.idx
    omega
  · rw [insertFold_spec]
  · intro st2 q hor
    unfold insertOneStep
    rcases hor with hcase | hcase <;> rw [hcase]

/-- Insert oracle whose first insert hits a duplicate key and whose
later inserts hit hard errors. -/
def oracleDupHard : Nat → InsertOutcome := fun i => if i = 0 then .dupKey else .hardErr

/-- Witness for C2 (amended): with a duplicate key then a hard error,
both products are attempted and accounted for, and the duplicate-key
step bumps only the failed counter and the index. -/
theorem insert_failures_never_abort_witness :
    ((insertProductsToMongo oracleDupHard
        { items := [], success := 0, failed := 0, idx := 0 } [sampleDoc, sampleDoc]).success
      + (insertProductsToMongo oracleDupHard
        { items := [], success := 0, failed := 0, idx := 0 } [sampleDoc, sampleDoc]).failed
      = 0 + 0 + 2)
    ∧ insertOneStep oracleDupHard
        { items := [], success := 0, failed := 0, idx := 0 } sampleDoc
      = { items := [], success := 0, failed := 1, idx := 1 } := by
  have h := insert_failures_never_abort oracleDupHard
    { items := [], success := 0, failed := 0, idx := 0 } [sampleDoc, sampleDoc]
  exact ⟨h.1, h.2.2 { items := [], success := 0, failed := 0, idx := 0 } sampleDoc
    (Or.inl rfl)⟩

/-! ### Claim C3: purge before insert -/

/-- C3 counterexample: a run over an empty extraction returns before the
purge step, so a document from a prior run survives in the destination
even though zero documents were inserted during that run; the claim
that after every completed run the destination holds exactly the
documents inserted during that run therefore fails at the empty
extraction. -/
theorem empty_run_skips_purge :
    (migrate embedAllOk insertAllOk [sampleDoc] []).items = [sampleDoc]
    ∧ (migrate embedAllOk insertAllOk [sampleDoc] []).totalSuccess = 0
    ∧ (migrate embedAllOk insertAllOk [sampleDoc] []).purged = false := by
  refine ⟨rfl, rfl, rfl⟩

/-- C3 (amended): for every run whose extracted record set is nonempty,
the purge precedes every insert: the final destination contents are
exactly the documents whose insert succeeded during that run,
independent of whatever the destination held before, and every
surviving document comes from the enriched records of that run. -/
theorem migrate_purges_before_insert
    (P : String → Nat → Except JsError (List Float)) (O : Nat → InsertOutcome)
    (initItems : List MongoProduct) (ps : List SQLiteProduct) (h : ps.length ≠ 0) :
    (migrate P O initItems ps).items
        = insertedList O 0
            (generateEmbeddingsForBatch P (ps.map transformProductToMongoSchema))
    ∧ (migrate P O initItems ps).purged = true
    ∧ ∀ d, d ∈ (migrate P O initItems ps).items →
        d ∈ generateEmbeddingsForBatch P (ps.map transformProductToMongoSchema) := by
  rw [migrate_spec P O initItems ps h]
  refine ⟨rfl, rfl, ?_⟩
  intro d hd
  exact mem_insertedList O _ 0 d hd

/-- Witness for C3 (amended) at a one-record run starting from a
nonempty destination: the surviving contents are exactly the one
document inserted during the run, and the prior document is gone. -/
theorem migrate_purges_before_insert_witness :
    ((migrate embedAllOk insertAllOk [sampleDoc] [rowGamma]).items
        = insertedList insertAllOk 0
            (generateEmbeddingsForBatch embedAllOk
              ([rowGamma].map transformProductToMongoSchema))
     ∧ (migrate embedAllOk insertAllOk [sampleDoc] [rowGamma]).purged = true)
    ∧ (migrate embedAllOk insertAllOk [sampleDoc] [rowGamma]).items
        = [{ transformProductToMongoSchema rowGamma with embedding := some vec768 }] := by
  have h := migrate_purges_before_insert embedAllOk insertAllOk [sampleDoc] [rowGamma]
    (by decide)
  exact ⟨⟨h.1, h.2.1⟩, rfl⟩
